import Mathlib

/-!
Shallow embedding of the evaluation-context layer of the Rudi engine
(pkg/eval/types/context.go) together with the datetime builtin
(pkg/builtin/datetime/functions.go).

Go semantics that matter here and how they are modelled:

* `*Document` is a pointer; Go maps (`Variables`, `Functions`) are reference
  types.  We model the store explicitly: a `Heap` holds three regions
  (documents, variable maps, function maps), each a bump-allocated array of
  cells addressed by `Nat`.  A Go pointer or map value is an address into the
  corresponding region; passing it around copies only the address, exactly as
  in Go.
* `NewContext(doc Document, ...)` receives the `Document` struct BY VALUE and
  stores `&doc`, i.e. it allocates a fresh heap cell holding a copy.
* Map contents are modelled as total functions `String → Option α`
  (`none` = key absent), matching Go's `m[k]` two-result read.  Go's
  unspecified iteration order never matters for the modelled operations
  because they are content-level (insert, delete, union with right bias).
* Go's `(any, error)` results are modelled as `α × Option String`
  (`none` = nil error).
-/

/-- JSON-like runtime values carried in the engine's `any` slots (spec §3:
null, bool, integer, float, string, vector, object; floats are represented
abstractly by their IEEE bit pattern so that equality stays decidable). -/
inductive Value where
  | null : Value
  | bool (b : Bool) : Value
  | int (n : Int) : Value
  | float (bits : Nat) : Value
  | str (s : String) : Value
  | vec (elems : List Value) : Value
  | obj (entries : List (String × Value)) : Value

/-- Go struct `Document` from context.go: a handle wrapping a single value,
the root of the data the script manipulates. -/
structure Document where
  data : Value

/-- Content of a Go `Variables` map (`map[string]any`). -/
def VarMap : Type := String → Option Value

/-- AST expressions as seen by functions.  Functions receive raw unevaluated
argument expressions; the only constructor context.go itself builds is the
shim wrapper (`MakeShim`), which is all the present claims need. -/
inductive Expr where
  | shim (v : Value) : Expr

/-- Coalescer handles.  Modelled from the spec: the coalescing package is not
part of the excerpt; the spec names exactly three factories (pedantic, strict,
humane), so a coalescer is identified by its mode tag. -/
inductive Coalescer where
  | pedantic : Coalescer
  | strict : Coalescer
  | humane : Coalescer
deriving DecidableEq

/-- Go `coalescing.NewStrict()`. -/
def NewStrict : Coalescer := Coalescer.strict

/-- Go `coalescing.NewPedantic()`. -/
def NewPedantic : Coalescer := Coalescer.pedantic

/-- Go `coalescing.NewHumane()`. -/
def NewHumane : Coalescer := Coalescer.humane

/-- Go struct `Context`: document handle (a pointer, here an address into the
document region), function registry and variable map (map references, here
addresses), and the active coalescer. -/
structure Context where
  document : Nat
  funcs : Nat
  vars : Nat
  coalescer : Coalescer
deriving DecidableEq

/-- Signature of `TupleFunction`: `func(ctx Context, args []ast.Expression)
(any, error)`.  Heap effects of the callee are outside the scope of the
wrapper claims, so the result is just the `(any, error)` pair. -/
def TupleFunction : Type := Context → List Expr → Value × Option String

/-- The Go `Function` interface, extensionally: every implementation exposes
exactly an `Evaluate` method and a `Description` string. -/
structure Function where
  Evaluate : Context → List Expr → Value × Option String
  Description : String

/-- Content of a Go `Functions` map (`map[string]Function`). -/
def FunMap : Type := String → Option Function

/-- The store: three bump-allocated regions for documents, variable maps and
function maps.  `nextDoc`/`nextVar`/`nextFun` are the next fresh addresses;
cells at or beyond them are unreachable garbage defaults. -/
structure Heap where
  nextDoc : Nat
  docs : Nat → Document
  nextVar : Nat
  varMaps : Nat → VarMap
  nextFun : Nat
  funMaps : Nat → FunMap

/-- Allocate a fresh document cell (models `&doc` escaping to the heap). -/
def Heap.allocDoc (h : Heap) (d : Document) : Heap × Nat :=
  ({ h with
      nextDoc := h.nextDoc + 1
      docs := fun a => if a = h.nextDoc then d else h.docs a },
    h.nextDoc)

/-- Overwrite the document cell at an address (models `*p = d`). -/
def Heap.writeDoc (h : Heap) (a : Nat) (d : Document) : Heap :=
  { h with docs := fun b => if b = a then d else h.docs b }

/-- Allocate a fresh variable-map cell (models a `make`/map-literal). -/
def Heap.allocVar (h : Heap) (m : VarMap) : Heap × Nat :=
  ({ h with
      nextVar := h.nextVar + 1
      varMaps := fun a => if a = h.nextVar then m else h.varMaps a },
    h.nextVar)

/-- Overwrite the variable-map cell at an address (in-place map mutation). -/
def Heap.writeVar (h : Heap) (a : Nat) (m : VarMap) : Heap :=
  { h with varMaps := fun b => if b = a then m else h.varMaps b }

/-- Allocate a fresh function-map cell (models a `make`/map-literal). -/
def Heap.allocFun (h : Heap) (m : FunMap) : Heap × Nat :=
  ({ h with
      nextFun := h.nextFun + 1
      funMaps := fun a => if a = h.nextFun then m else h.funMaps a },
    h.nextFun)

/-- Overwrite the function-map cell at an address (in-place map mutation). -/
def Heap.writeFun (h : Heap) (a : Nat) (m : FunMap) : Heap :=
  { h with funMaps := fun b => if b = a then m else h.funMaps b }

/-- Go `func (d *Document) Data() any`, read through the pointer. -/
def Document.Data (h : Heap) (a : Nat) : Value :=
  (h.docs a).data

/-- Go `func (d *Document) Set(wrappedData any)`, write through the pointer. -/
def Document.Set (h : Heap) (a : Nat) (wrappedData : Value) : Heap :=
  h.writeDoc a { data := wrappedData }

/-- Go `NewDocument(data any) (Document, error)`: builds the struct value and
never fails. -/
def NewDocument (data : Value) : Document × Option String :=
  ({ data := data }, none)

/-- Go `NewVariables() Variables`: allocates an empty map. -/
def NewVariables (h : Heap) : Heap × Nat :=
  h.allocVar (fun _ => none)

/-- Go `func (v Variables) Get(name string) (any, bool)`; `v` is a map
reference, so the receiver is an address. -/
def Variables.Get (h : Heap) (v : Nat) (name : String) : Option Value :=
  h.varMaps v name

/-- Go `func (v Variables) Set(name string, val any) Variables`: sets the
variable in the current set IN PLACE and returns the same map reference. -/
def Variables.Set (h : Heap) (v : Nat) (name : String) (val : Value) :
    Heap × Nat :=
  (h.writeVar v (fun k => if k = name then some val else h.varMaps v k), v)

/-- Go `func (v Variables) DeepCopy() Variables`: a fresh map with the same
content. -/
def Variables.DeepCopy (h : Heap) (v : Nat) : Heap × Nat :=
  h.allocVar (h.varMaps v)

/-- Go `func (v Variables) With(name string, val any) Variables`:
`v.DeepCopy().Set(name, val)`. -/
def Variables.With (h : Heap) (v : Nat) (name : String) (val : Value) :
    Heap × Nat :=
  let copied := Variables.DeepCopy h v
  Variables.Set copied.1 copied.2 name val

/-- Go `NewFunctions() Functions`: allocates an empty map. -/
def NewFunctions (h : Heap) : Heap × Nat :=
  h.allocFun (fun _ => none)

/-- Go `func (f Functions) Get(name string) (Function, bool)`. -/
def Functions.Get (h : Heap) (f : Nat) (name : String) : Option Function :=
  h.funMaps f name

/-- Go `func (f Functions) Set(name string, fun Function) Functions`: in-place
insert, returns the same map reference for fluent access. -/
def Functions.Set (h : Heap) (f : Nat) (name : String) (fn : Function) :
    Heap × Nat :=
  (h.writeFun f (fun k => if k = name then some fn else h.funMaps f k), f)

/-- Go `func (f Functions) Delete(name string) Functions`: in-place delete,
returns the same map reference. -/
def Functions.Delete (h : Heap) (f : Nat) (name : String) : Heap × Nat :=
  (h.writeFun f (fun k => if k = name then none else h.funMaps f k), f)

/-- Go `func (f Functions) Add(other Functions) Functions`: copies every
entry of `other` into `f` (entries of `other` overwrite entries of `f` with
the same name) and returns the same reference `f`. -/
def Functions.Add (h : Heap) (f other : Nat) : Heap × Nat :=
  (h.writeFun f (fun k =>
      match h.funMaps other k with
      | some fn => some fn
      | none => h.funMaps f k),
    f)

/-- Go `func (f Functions) Remove(other Functions) Functions`: deletes from
`f` every name bound in `other`, returns the same reference. -/
def Functions.Remove (h : Heap) (f other : Nat) : Heap × Nat :=
  (h.writeFun f (fun k =>
      match h.funMaps other k with
      | some _ => none
      | none => h.funMaps f k),
    f)

/-- Go `func (f Functions) DeepCopy() Functions`: fresh map, same content. -/
def Functions.DeepCopy (h : Heap) (f : Nat) : Heap × Nat :=
  h.allocFun (h.funMaps f)

/-- Go `NewContext(doc Document, vars Variables, funcs Functions,
coalescer coalescing.Coalescer) Context`.  A nil map argument is modelled by
`none` and replaced by a fresh empty map; a nil coalescer defaults to strict;
the by-value `doc` parameter escapes into a fresh heap cell (`&doc`). -/
def NewContext (h : Heap) (doc : Document) (vars : Option Nat)
    (funcs : Option Nat) (coalescer : Option Coalescer) : Heap × Context :=
  let funcsStep : Heap × Nat :=
    match funcs with
    | none => NewFunctions h
    | some f => (h, f)
  let varsStep : Heap × Nat :=
    match vars with
    | none => NewVariables funcsStep.1
    | some v => (funcsStep.1, v)
  let coal : Coalescer :=
    match coalescer with
    | none => NewStrict
    | some k => k
  let docStep : Heap × Nat := varsStep.1.allocDoc doc
  (docStep.1,
    { document := docStep.2
      funcs := funcsStep.2
      vars := varsStep.2
      coalescer := coal })

/-- Go `func (c Context) Coalesce() coalescing.Coalescer`. -/
def Context.Coalesce (c : Context) : Coalescer :=
  c.coalescer

/-- Go `func (c Context) GetDocument() *Document`: returns the stored
pointer (address) itself. -/
def Context.GetDocument (c : Context) : Nat :=
  c.document

/-- Go `func (c Context) GetVariable(name string) (any, bool)`. -/
def Context.GetVariable (h : Heap) (c : Context) (name : String) :
    Option Value :=
  Variables.Get h c.vars name

/-- Go `func (c Context) GetFunction(name string) (Function, bool)`. -/
def Context.GetFunction (h : Heap) (c : Context) (name : String) :
    Option Function :=
  Functions.Get h c.funcs name

/-- Go `func (c Context) WithVariable(name string, val any) Context`: a new
Context sharing the document pointer, function map and coalescer, with the
variable map replaced by `c.vars.With(name, val)`. -/
def Context.WithVariable (h : Heap) (c : Context) (name : String)
    (val : Value) : Heap × Context :=
  let extended := Variables.With h c.vars name val
  (extended.1,
    { document := c.document
      funcs := c.funcs
      vars := extended.2
      coalescer := c.coalescer })

/-- Go `func (c Context) WithCoalescer(coalescer coalescing.Coalescer)
Context`: same document, functions and vars, new coalescer.  No heap
effect. -/
def Context.WithCoalescer (c : Context) (coalescer : Coalescer) : Context :=
  { document := c.document
    funcs := c.funcs
    vars := c.vars
    coalescer := coalescer }

/-- Go struct `basicFunc`: a tuple function together with its description. -/
structure basicFunc where
  f : TupleFunction
  desc : String

/-- Go `func (f basicFunc) Evaluate(ctx Context, args []ast.Expression)
(any, error)`: delegates to the wrapped tuple function. -/
def basicFunc.Evaluate (bf : basicFunc) (ctx : Context) (args : List Expr) :
    Value × Option String :=
  bf.f ctx args

/-- Go `func (f basicFunc) Description() string`. -/
def basicFunc.Description (bf : basicFunc) : String :=
  bf.desc

/-- The `var _ Function = basicFunc(nil)` conformance: a basicFunc viewed
through the Function interface. -/
def basicFunc.toFunction (bf : basicFunc) : Function :=
  { Evaluate := bf.Evaluate, Description := bf.Description }

/-- Go `BasicFunction(f TupleFunction, description string) Function`. -/
def BasicFunction (f : TupleFunction) (description : String) : Function :=
  (basicFunc.mk f description).toFunction

/-- Go `MakeShim(val any) ast.Shim`. -/
def MakeShim (val : Value) : Expr :=
  Expr.shim val

/-- A Go `time.Location`, identified by its UTC offset in seconds (all the
claims need is that UTC and a non-UTC local zone are distinguishable). -/
structure GoLocation where
  offsetSeconds : Int
deriving DecidableEq

/-- The UTC location: offset zero. -/
def utcLocation : GoLocation := { offsetSeconds := 0 }

/-- A Go `time.Time`: an absolute instant plus the location used for
presentation. -/
structure GoTime where
  unixSec : Int
  loc : GoLocation
deriving DecidableEq

/-- The host environment of one call: the current instant and the process's
local time zone. -/
structure Clock where
  nowUnix : Int
  localLocation : GoLocation

/-- Go `time.Now()`: the current instant carrying the LOCAL location. -/
def timeNow (c : Clock) : GoTime :=
  { unixSec := c.nowUnix, loc := c.localLocation }

/-- Go `func (t Time) UTC() Time`: same instant, location switched to UTC. -/
def GoTime.utc (t : GoTime) : GoTime :=
  { t with loc := utcLocation }

/-- Abstraction of Go's `Time.Format`: renders the layout together with the
location-adjusted clock reading.  What matters for the claims is that the
output observes the time's location (a UTC-converted time formats
differently whenever the local offset is nonzero). -/
def GoTime.format (t : GoTime) (layout : String) : String :=
  layout ++ "@" ++ toString (t.unixSec + t.loc.offsetSeconds)

/-- Go `nowFunction(format string) (any, error)` from
pkg/builtin/datetime/functions.go: `return time.Now().Format(format), nil`.
The time is formatted as produced by `time.Now()` — no UTC conversion. -/
def nowFunction (c : Clock) (format : String) : String × Option String :=
  ((timeNow c).format format, none)

/-- The description string under which `now` is registered in
`datetime.Functions` (pkg/builtin/datetime/functions.go line 15). -/
def nowDescription : String :=
  "returns the current date & time (UTC), formatted like a Go date"

/-! Helper lemmas about the heap regions. -/

/-- Reading a variable-map cell right after writing it yields the written
content. -/
theorem Heap.writeVar_varMaps_self (h : Heap) (a : Nat) (m : VarMap) :
    (h.writeVar a m).varMaps a = m := by
  simp [Heap.writeVar]

/-- Writing one variable-map cell leaves every other cell unchanged. -/
theorem Heap.writeVar_varMaps_ne (h : Heap) (a b : Nat) (m : VarMap)
    (hne : b ≠ a) : (h.writeVar a m).varMaps b = h.varMaps b := by
  simp [Heap.writeVar, hne]

/-- Variable-map writes do not touch the function region. -/
theorem Heap.writeVar_funMaps (h : Heap) (a : Nat) (m : VarMap) :
    (h.writeVar a m).funMaps = h.funMaps := rfl

/-- Variable-map writes do not touch the document region. -/
theorem Heap.writeVar_docs (h : Heap) (a : Nat) (m : VarMap) :
    (h.writeVar a m).docs = h.docs := rfl

/-- A fresh variable-map cell holds the allocated content. -/
theorem Heap.allocVar_varMaps_fresh (h : Heap) (m : VarMap) :
    (h.allocVar m).1.varMaps h.nextVar = m := by
  simp [Heap.allocVar]

/-- Allocation leaves the already-allocated variable-map cells unchanged. -/
theorem Heap.allocVar_varMaps_old (h : Heap) (m : VarMap) (b : Nat)
    (hb : b ≠ h.nextVar) : (h.allocVar m).1.varMaps b = h.varMaps b := by
  simp [Heap.allocVar, hb]

/-- The address returned by variable-map allocation is the bump pointer. -/
theorem Heap.allocVar_addr (h : Heap) (m : VarMap) :
    (h.allocVar m).2 = h.nextVar := rfl

/-- Variable-map allocation does not touch the function region. -/
theorem Heap.allocVar_funMaps (h : Heap) (m : VarMap) :
    (h.allocVar m).1.funMaps = h.funMaps := rfl

/-- Reading a function-map cell right after writing it yields the written
content. -/
theorem Heap.writeFun_funMaps_self (h : Heap) (a : Nat) (m : FunMap) :
    (h.writeFun a m).funMaps a = m := by
  simp [Heap.writeFun]

/-- Reading a document cell right after writing it yields the written
document. -/
theorem Heap.writeDoc_docs_self (h : Heap) (a : Nat) (d : Document) :
    (h.writeDoc a d).docs a = d := by
  simp [Heap.writeDoc]

/-- Writing one document cell leaves every other cell unchanged. -/
theorem Heap.writeDoc_docs_ne (h : Heap) (a b : Nat) (d : Document)
    (hne : b ≠ a) : (h.writeDoc a d).docs b = h.docs b := by
  simp [Heap.writeDoc, hne]

/-- A fresh document cell holds the allocated document. -/
theorem Heap.allocDoc_docs_fresh (h : Heap) (d : Document) :
    (h.allocDoc d).1.docs h.nextDoc = d := by
  simp [Heap.allocDoc]

/-- Document allocation leaves the already-allocated cells unchanged. -/
theorem Heap.allocDoc_docs_old (h : Heap) (d : Document) (b : Nat)
    (hb : b ≠ h.nextDoc) : (h.allocDoc d).1.docs b = h.docs b := by
  simp [Heap.allocDoc, hb]

/-! Claim theorems. -/

/-- C1: the document handle is reference-shared across derived contexts —
`WithVariable` and `WithCoalescer` copy the document pointer unchanged, so a
`Set` through the handle of any one of the three contexts is observed by
`Data` through every other. -/
theorem document_shared_across_derived (h : Heap) (c : Context) (n : String)
    (v : Value) (k : Coalescer) (x : Value) :
    (Context.WithVariable h c n v).2.GetDocument = c.GetDocument
    ∧ (Context.WithCoalescer c k).GetDocument = c.GetDocument
    ∧ Document.Data
        (Document.Set (Context.WithVariable h c n v).1
          ((Context.WithVariable h c n v).2.GetDocument) x)
        c.GetDocument = x
    ∧ Document.Data
        (Document.Set (Context.WithVariable h c n v).1
          ((Context.WithVariable h c n v).2.GetDocument) x)
        ((Context.WithCoalescer c k).GetDocument) = x
    ∧ Document.Data
        (Document.Set (Context.WithVariable h c n v).1 c.GetDocument x)
        ((Context.WithVariable h c n v).2.GetDocument) = x
    ∧ Document.Data (Document.Set h ((Context.WithCoalescer c k).GetDocument) x)
        c.GetDocument = x := by
  refine ⟨rfl, rfl, ?_, ?_, ?_, ?_⟩ <;>
    simp [Context.WithVariable, Context.WithCoalescer, Context.GetDocument,
      Document.Data, Document.Set, Heap.writeDoc]

/-- C5: a nil coalescer passed to `NewContext` defaults to the strict
coalescer, whatever the document, variable set and function set are. -/
theorem nil_coalescer_defaults_to_strict (h : Heap) (d : Document)
    (vs fs : Option Nat) :
    (NewContext h d vs fs none).2.Coalesce = NewStrict := rfl

/-- C6: `NewDocument` never fails and wraps exactly the given value; once the
handle is on the heap, `Data` reads the wrapped value and, after `Set y`,
reads `y` — the most recently set root, for every variant of root value. -/
theorem document_get_replace_root (h : Heap) (x y : Value) :
    (NewDocument x).2 = none
    ∧ (NewDocument x).1.data = x
    ∧ Document.Data (h.allocDoc (NewDocument x).1).1
        (h.allocDoc (NewDocument x).1).2 = x
    ∧ Document.Data
        (Document.Set (h.allocDoc (NewDocument x).1).1
          (h.allocDoc (NewDocument x).1).2 y)
        (h.allocDoc (NewDocument x).1).2 = y := by
  refine ⟨rfl, rfl, ?_, ?_⟩ <;>
    simp [NewDocument, Document.Data, Document.Set, Heap.allocDoc,
      Heap.writeDoc]

/-- C7: `BasicFunction f s` is a faithful wrapper — its `Evaluate` returns
exactly what the wrapped tuple function returns and its `Description` is
exactly the given string. -/
theorem basicFunction_faithful_wrapper (f : TupleFunction) (s : String)
    (ctx : Context) (args : List Expr) :
    (BasicFunction f s).Evaluate ctx args = f ctx args
    ∧ (BasicFunction f s).Description = s :=
  ⟨rfl, rfl⟩

/-- C10: the `now` builtin returns the formatted `time.Now()` reading with a
nil error; the formatted time carries the host's LOCAL location — it is not
the UTC-converted time whenever the local zone differs from UTC — even though
the registered description claims the result is UTC. -/
theorem now_uses_local_time (c : Clock) (fmt : String) :
    nowFunction c fmt = ((timeNow c).format fmt, none)
    ∧ (timeNow c).loc = c.localLocation
    ∧ (c.localLocation ≠ utcLocation → timeNow c ≠ (timeNow c).utc)
    ∧ nowDescription
        = "returns the current date & time (UTC), formatted like a Go date" := by
  refine ⟨rfl, rfl, ?_, rfl⟩
  intro hne heq
  exact hne (congrArg GoTime.loc heq)

/-- Concrete host clock for the C10 witness: one hour east of UTC. -/
def witClock : Clock :=
  { nowUnix := 100, localLocation := { offsetSeconds := 3600 } }

/-- C10 witness: at a concrete clock one hour east of UTC, `now` returns the
locally-formatted reading with nil error, and the formatted time differs
from its UTC conversion. -/
theorem now_uses_local_time_witness :
    witClock.localLocation ≠ utcLocation
    ∧ nowFunction witClock "L" = ((timeNow witClock).format "L", none)
    ∧ timeNow witClock ≠ (timeNow witClock).utc :=
  ⟨by decide,
    (now_uses_local_time witClock "L").1,
    (now_uses_local_time witClock "L").2.2.1 (by decide)⟩

/-- C2: `WithVariable` derives a context in which the new binding is visible,
every other variable, every function and the coalescer are unchanged, and the
original context still sees exactly its old bindings (including the shadowed
name); `WithCoalescer` changes only the coalescer and leaves variables and
functions as in the original. -/
theorem withVariable_withCoalescer_frame (h : Heap) (c : Context) (n : String)
    (v : Value) (k : Coalescer) (hvalid : c.vars < h.nextVar) :
    Context.GetVariable (Context.WithVariable h c n v).1
        (Context.WithVariable h c n v).2 n = some v
    ∧ (∀ m, m ≠ n →
        Context.GetVariable (Context.WithVariable h c n v).1
          (Context.WithVariable h c n v).2 m = Context.GetVariable h c m)
    ∧ (∀ m, Context.GetFunction (Context.WithVariable h c n v).1
        (Context.WithVariable h c n v).2 m = Context.GetFunction h c m)
    ∧ Context.Coalesce (Context.WithVariable h c n v).2 = Context.Coalesce c
    ∧ (∀ m, Context.GetVariable (Context.WithVariable h c n v).1 c m
        = Context.GetVariable h c m)
    ∧ Context.Coalesce (Context.WithCoalescer c k) = k
    ∧ (∀ m, Context.GetVariable h (Context.WithCoalescer c k) m
        = Context.GetVariable h c m)
    ∧ (∀ m, Context.GetFunction h (Context.WithCoalescer c k) m
        = Context.GetFunction h c m) := by
  have hne : c.vars ≠ h.nextVar := Nat.ne_of_lt hvalid
  refine ⟨?_, ?_, ?_, rfl, ?_, rfl, fun m => rfl, fun m => rfl⟩
  · simp [Context.WithVariable, Variables.With, Variables.DeepCopy,
      Variables.Set, Heap.allocVar, Heap.writeVar, Context.GetVariable,
      Variables.Get]
  · intro m hm
    simp [Context.WithVariable, Variables.With, Variables.DeepCopy,
      Variables.Set, Heap.allocVar, Heap.writeVar, Context.GetVariable,
      Variables.Get, hm]
  · intro m
    simp [Context.WithVariable, Variables.With, Variables.DeepCopy,
      Variables.Set, Heap.allocVar, Heap.writeVar, Context.GetFunction,
      Functions.Get]
  · intro m
    simp [Context.WithVariable, Variables.With, Variables.DeepCopy,
      Variables.Set, Heap.allocVar, Heap.writeVar, Context.GetVariable,
      Variables.Get, hne]

/-- Concrete heap for witnesses: one allocated document cell, one allocated
variable map binding "seen" to 7, one allocated (empty) function map. -/
def witHeap : Heap :=
  { nextDoc := 1
    docs := fun _ => { data := Value.null }
    nextVar := 1
    varMaps := fun _ name => if name = "seen" then some (Value.int 7) else none
    nextFun := 1
    funMaps := fun _ _ => none }

/-- Concrete context over `witHeap`, pointing at the three allocated cells. -/
def witCtx : Context :=
  { document := 0, funcs := 0, vars := 0, coalescer := Coalescer.strict }

/-- C2 witness: at the concrete context, deriving with a new binding makes it
visible, keeps the untouched binding, and leaves the original context's view
intact. -/
theorem withVariable_withCoalescer_frame_witness :
    witCtx.vars < witHeap.nextVar
    ∧ Context.GetVariable (Context.WithVariable witHeap witCtx "a" (Value.int 1)).1
        (Context.WithVariable witHeap witCtx "a" (Value.int 1)).2 "a"
        = some (Value.int 1)
    ∧ Context.GetVariable (Context.WithVariable witHeap witCtx "a" (Value.int 1)).1
        (Context.WithVariable witHeap witCtx "a" (Value.int 1)).2 "seen"
        = Context.GetVariable witHeap witCtx "seen"
    ∧ Context.GetVariable (Context.WithVariable witHeap witCtx "a" (Value.int 1)).1
        witCtx "a" = Context.GetVariable witHeap witCtx "a" :=
  ⟨by decide,
    (withVariable_withCoalescer_frame witHeap witCtx "a" (Value.int 1)
      Coalescer.humane (by decide)).1,
    (withVariable_withCoalescer_frame witHeap witCtx "a" (Value.int 1)
      Coalescer.humane (by decide)).2.1 "seen" (by decide),
    (withVariable_withCoalescer_frame witHeap witCtx "a" (Value.int 1)
      Coalescer.humane (by decide)).2.2.2.2.1 "a"⟩

/-- C3: `Variables.With` is non-mutating — the returned fresh map holds the
new binding and otherwise the old content, while the receiver's cell is
untouched; `Variables.Set` mutates in place and returns the same map
reference. -/
theorem variables_with_vs_set (h : Heap) (a : Nat) (n : String) (x : Value)
    (hvalid : a < h.nextVar) :
    Variables.Get (Variables.With h a n x).1 (Variables.With h a n x).2 n
        = some x
    ∧ (∀ m, m ≠ n →
        Variables.Get (Variables.With h a n x).1 (Variables.With h a n x).2 m
          = Variables.Get h a m)
    ∧ (∀ m, Variables.Get (Variables.With h a n x).1 a m = Variables.Get h a m)
    ∧ Variables.Get (Variables.Set h a n x).1 a n = some x
    ∧ (Variables.Set h a n x).2 = a := by
  have hne : a ≠ h.nextVar := Nat.ne_of_lt hvalid
  refine ⟨?_, ?_, ?_, ?_, rfl⟩
  · simp [Variables.With, Variables.DeepCopy, Variables.Set, Heap.allocVar,
      Heap.writeVar, Variables.Get]
  · intro m hm
    simp [Variables.With, Variables.DeepCopy, Variables.Set, Heap.allocVar,
      Heap.writeVar, Variables.Get, hm]
  · intro m
    simp [Variables.With, Variables.DeepCopy, Variables.Set, Heap.allocVar,
      Heap.writeVar, Variables.Get, hne]
  · simp [Variables.Set, Heap.writeVar, Variables.Get]

/-- C3 witness: at address 0 of the concrete heap, `With` shows the new
binding and keeps the old one, the original cell is unchanged, and `Set`
mutates in place returning the same address. -/
theorem variables_with_vs_set_witness :
    (0 : Nat) < witHeap.nextVar
    ∧ Variables.Get (Variables.With witHeap 0 "a" (Value.int 2)).1
        (Variables.With witHeap 0 "a" (Value.int 2)).2 "a" = some (Value.int 2)
    ∧ Variables.Get (Variables.With witHeap 0 "a" (Value.int 2)).1 0 "a"
        = Variables.Get witHeap 0 "a"
    ∧ Variables.Get (Variables.Set witHeap 0 "a" (Value.int 2)).1 0 "a"
        = some (Value.int 2)
    ∧ (Variables.Set witHeap 0 "a" (Value.int 2)).2 = 0 :=
  ⟨by decide,
    (variables_with_vs_set witHeap 0 "a" (Value.int 2) (by decide)).1,
    (variables_with_vs_set witHeap 0 "a" (Value.int 2) (by decide)).2.2.1 "a",
    (variables_with_vs_set witHeap 0 "a" (Value.int 2) (by decide)).2.2.2.1,
    (variables_with_vs_set witHeap 0 "a" (Value.int 2) (by decide)).2.2.2.2⟩

/-- C4: `Functions.Add` returns the very same registry reference, whose
content after the call is the right-biased union — `other`'s entry where
`other` binds the name, the prior entry where only the receiver binds it,
absence where neither does; the bound-name set is exactly the union. -/
theorem functions_add_union (h : Heap) (f g : Nat) :
    (Functions.Add h f g).2 = f
    ∧ (∀ n, Functions.Get (Functions.Add h f g).1 f n
        = match Functions.Get h g n with
          | some fn => some fn
          | none => Functions.Get h f n)
    ∧ (∀ n, (Functions.Get (Functions.Add h f g).1 f n).isSome
        = ((Functions.Get h f n).isSome || (Functions.Get h g n).isSome)) := by
  refine ⟨rfl, fun n => ?_, fun n => ?_⟩
  · simp [Functions.Add, Heap.writeFun, Functions.Get]
  · simp [Functions.Add, Heap.writeFun, Functions.Get]
    cases h.funMaps g n <;> cases h.funMaps f n <;> simp

/-- C9: `NewContext` with nil variable and function sets installs fresh empty
maps — every lookup reports absence rather than failing — and registering
entries on the defaulted sets afterwards is well-defined and visible. -/
theorem newContext_tolerates_nil_sets (h : Heap) (d : Document)
    (k : Option Coalescer) (n : String) (v : Value) (fn : Function) :
    Context.GetVariable (NewContext h d none none k).1
        (NewContext h d none none k).2 n = none
    ∧ Context.GetFunction (NewContext h d none none k).1
        (NewContext h d none none k).2 n = none
    ∧ Variables.Get
        (Variables.Set (NewContext h d none none k).1
          (NewContext h d none none k).2.vars n v).1
        (NewContext h d none none k).2.vars n = some v
    ∧ Functions.Get
        (Functions.Set (NewContext h d none none k).1
          (NewContext h d none none k).2.funcs n fn).1
        (NewContext h d none none k).2.funcs n = some fn := by
  refine ⟨?_, ?_, ?_, ?_⟩ <;>
    simp [NewContext, NewVariables, NewFunctions, Heap.allocVar, Heap.allocFun,
      Heap.allocDoc, Context.GetVariable, Context.GetFunction, Variables.Get,
      Functions.Get, Variables.Set, Functions.Set, Heap.writeVar, Heap.writeFun]

/-- The document address a fresh context stores is the allocation pointer of
the heap it was built over, whatever the other arguments are. -/
theorem NewContext_document_addr (h : Heap) (d : Document) (vs fs : Option Nat)
    (k : Option Coalescer) :
    (NewContext h d vs fs k).2.document = h.nextDoc := by
  cases vs <;> cases fs <;> rfl

/-- Building a context bumps the document allocation pointer by one. -/
theorem NewContext_nextDoc (h : Heap) (d : Document) (vs fs : Option Nat)
    (k : Option Coalescer) :
    (NewContext h d vs fs k).1.nextDoc = h.nextDoc + 1 := by
  cases vs <;> cases fs <;> rfl

/-- The fresh document cell of a new context holds the by-value copy of the
caller's document. -/
theorem NewContext_docs_fresh (h : Heap) (d : Document) (vs fs : Option Nat)
    (k : Option Coalescer) :
    (NewContext h d vs fs k).1.docs h.nextDoc = d := by
  cases vs <;> cases fs <;>
    simp [NewContext, NewVariables, NewFunctions, Heap.allocDoc, Heap.allocVar,
      Heap.allocFun]

/-- Building a context leaves every previously allocated document cell
unchanged. -/
theorem NewContext_docs_old (h : Heap) (d : Document) (vs fs : Option Nat)
    (k : Option Coalescer) (b : Nat) (hb : b ≠ h.nextDoc) :
    (NewContext h d vs fs k).1.docs b = h.docs b := by
  cases vs <;> cases fs <;>
    simp [NewContext, NewVariables, NewFunctions, Heap.allocDoc, Heap.allocVar,
      Heap.allocFun, hb]

/-- C8: `NewContext` copies its by-value `Document` argument into a fresh
cell — the context reads the copied data, two contexts built by separate
calls hold distinct handles and never observe each other's document
mutations, and setting through a fresh context's handle leaves every
pre-existing document cell (in particular the caller's) unchanged. -/
theorem newContext_copies_document (h : Heap) (d : Document)
    (vs fs vs2 fs2 : Option Nat) (k k2 : Option Coalescer) :
    Document.Data (NewContext h d vs fs k).1
        ((NewContext h d vs fs k).2.GetDocument) = d.data
    ∧ (NewContext h d vs fs k).2.GetDocument
        ≠ (NewContext (NewContext h d vs fs k).1 d vs2 fs2 k2).2.GetDocument
    ∧ (∀ x, Document.Data
        (Document.Set (NewContext (NewContext h d vs fs k).1 d vs2 fs2 k2).1
          ((NewContext (NewContext h d vs fs k).1 d vs2 fs2 k2).2.GetDocument)
          x)
        ((NewContext h d vs fs k).2.GetDocument)
      = Document.Data (NewContext (NewContext h d vs fs k).1 d vs2 fs2 k2).1
          ((NewContext h d vs fs k).2.GetDocument))
    ∧ (∀ x, Document.Data
        (Document.Set (NewContext (NewContext h d vs fs k).1 d vs2 fs2 k2).1
          ((NewContext h d vs fs k).2.GetDocument) x)
        ((NewContext (NewContext h d vs fs k).1 d vs2 fs2 k2).2.GetDocument)
      = Document.Data (NewContext (NewContext h d vs fs k).1 d vs2 fs2 k2).1
          ((NewContext (NewContext h d vs fs k).1 d vs2 fs2 k2).2.GetDocument))
    ∧ (∀ a, a < h.nextDoc → ∀ x, Document.Data
        (Document.Set (NewContext h d vs fs k).1
          ((NewContext h d vs fs k).2.GetDocument) x) a
      = Document.Data h a) := by
  have h2doc :
      (NewContext (NewContext h d vs fs k).1 d vs2 fs2 k2).2.document
        = h.nextDoc + 1 := by
    rw [NewContext_document_addr, NewContext_nextDoc]
  refine ⟨?_, ?_, ?_, ?_, ?_⟩
  · simp only [Context.GetDocument, Document.Data, NewContext_document_addr,
      NewContext_docs_fresh]
  · simp only [Context.GetDocument, NewContext_document_addr,
      NewContext_nextDoc, h2doc]
    omega
  · intro x
    simp only [Context.GetDocument, Document.Data, Document.Set,
      NewContext_document_addr, NewContext_nextDoc, h2doc]
    rw [Heap.writeDoc_docs_ne]
    omega
  · intro x
    simp only [Context.GetDocument, Document.Data, Document.Set,
      NewContext_document_addr, NewContext_nextDoc, h2doc]
    rw [Heap.writeDoc_docs_ne]
    omega
  · intro a ha x
    simp only [Context.GetDocument, Document.Data, Document.Set,
      NewContext_document_addr]
    rw [Heap.writeDoc_docs_ne _ _ _ _ (by omega), NewContext_docs_old]
    omega

/-- C8 witness: over the concrete heap, the two contexts built by successive
`NewContext` calls hold distinct document handles, and writing through the
first context's handle leaves the pre-existing document cell 0 unchanged. -/
theorem newContext_copies_document_witness :
    (0 : Nat) < witHeap.nextDoc
    ∧ (NewContext witHeap { data := Value.int 9 } (some 0) (some 0)
        none).2.GetDocument
      ≠ (NewContext (NewContext witHeap { data := Value.int 9 } (some 0)
          (some 0) none).1 { data := Value.int 9 } (some 0) (some 0)
          none).2.GetDocument
    ∧ Document.Data
        (Document.Set (NewContext witHeap { data := Value.int 9 } (some 0)
          (some 0) none).1
          ((NewContext witHeap { data := Value.int 9 } (some 0) (some 0)
            none).2.GetDocument) (Value.int 5)) 0
      = Document.Data witHeap 0 :=
  ⟨by decide,
    (newContext_copies_document witHeap { data := Value.int 9 } (some 0)
      (some 0) (some 0) (some 0) none none).2.1,
    (newContext_copies_document witHeap { data := Value.int 9 } (some 0)
      (some 0) (some 0) (some 0) none none).2.2.2.2 0 (by decide)
      (Value.int 5)⟩
